import Mathlib

/-!
Verification development for the Skate Hustle demo (browser 2D skating game).

The definitions below are a shallow embedding of the Matter-physics revision
of the game (src/unnamed/part_000), the reference revision for locomotion:
velocities are modelled as rationals, the ground-contact counter as an
integer, and the per-frame `PlayerController.update` as a pure state
transformer.  The Phaser clock's `delayedCall` used for kick expiry is
modelled as a per-controller countdown (in simulation ticks) that is
processed by the scene clock strictly before the controller update of a
frame, matching Phaser's step order (clock update precedes `scene.update`).
-/

namespace SkateHustle

/-! ## Ground-Contact Tracker (part_000, `GameScene.onCollisionStart` /
`GameScene.onCollisionEnd`, lines 444-486) -/

/-- A Matter body as seen by the collision handlers: only its `label` and
`isStatic` flag are inspected. -/
structure CBody where
  label : String
  isStatic : Bool
deriving DecidableEq

/-- A collision pair from a Matter `collisionstart` / `collisionend` event. -/
structure CPair where
  bodyA : CBody
  bodyB : CBody
deriving DecidableEq

/-- One pair handled inside `onCollisionStart` (lines 447-460):
`if (labelA === FOOT_SENSOR && B.isStatic) player.onGroundContacts++;
else if (labelB === FOOT_SENSOR && A.isStatic) player.onGroundContacts++;` -/
def beginPair (c : Int) (p : CPair) : Int :=
  if p.bodyA.label == "FOOT_SENSOR" && p.bodyB.isStatic then c + 1
  else if p.bodyB.label == "FOOT_SENSOR" && p.bodyA.isStatic then c + 1
  else c

/-- One pair handled inside `onCollisionEnd` (lines 464-486): the decrement
is clamped, `player.onGroundContacts = Math.max(0, player.onGroundContacts - 1)`. -/
def endPair (c : Int) (p : CPair) : Int :=
  if p.bodyA.label == "FOOT_SENSOR" && p.bodyB.isStatic then max 0 (c - 1)
  else if p.bodyB.label == "FOOT_SENSOR" && p.bodyA.isStatic then max 0 (c - 1)
  else c

/-- A contact event delivered by the physics world: a begin or end event
carrying its list of collision pairs (`event.pairs`). -/
inductive ContactEvent
  | contactBegin (pairs : List CPair)
  | contactEnd (pairs : List CPair)

/-- `onCollisionStart` folds `beginPair` over `event.pairs`. -/
def onCollisionStart (c : Int) (pairs : List CPair) : Int :=
  pairs.foldl beginPair c

/-- `onCollisionEnd` folds `endPair` over `event.pairs`. -/
def onCollisionEnd (c : Int) (pairs : List CPair) : Int :=
  pairs.foldl endPair c

/-- Dispatch one contact event to the tracker. -/
def processEvent (c : Int) : ContactEvent → Int
  | ContactEvent.contactBegin ps => onCollisionStart c ps
  | ContactEvent.contactEnd ps => onCollisionEnd c ps

/-- The contact counter after a whole sequence of events, starting from a
given count.  `createPlayer` (line 66) starts the counter at 0. -/
def processEvents (c : Int) (evs : List ContactEvent) : Int :=
  evs.foldl processEvent c

/-- The derived ground flag, `get onGround() { return this.player.onGroundContacts > 0 }`
(part_000 lines 167-169). -/
def onGroundOf (c : Int) : Bool :=
  decide (0 < c)

theorem beginPair_nonneg (c : Int) (p : CPair) (h : 0 ≤ c) : 0 ≤ beginPair c p := by
  unfold beginPair
  split
  · omega
  · split
    · omega
    · exact h

theorem endPair_nonneg (c : Int) (p : CPair) (h : 0 ≤ c) : 0 ≤ endPair c p := by
  unfold endPair
  split
  · exact le_max_left 0 (c - 1)
  · split
    · exact le_max_left 0 (c - 1)
    · exact h

theorem foldl_pairs_nonneg (f : Int → CPair → Int)
    (hf : ∀ c p, 0 ≤ c → 0 ≤ f c p) :
    ∀ (ps : List CPair) (c : Int), 0 ≤ c → 0 ≤ ps.foldl f c := by
  intro ps
  induction ps with
  | nil => intro c hc; exact hc
  | cons p ps ih => intro c hc; exact ih (f c p) (hf c p hc)

theorem processEvent_nonneg (c : Int) (e : ContactEvent) (h : 0 ≤ c) :
    0 ≤ processEvent c e := by
  cases e with
  | contactBegin ps => exact foldl_pairs_nonneg beginPair beginPair_nonneg ps c h
  | contactEnd ps => exact foldl_pairs_nonneg endPair endPair_nonneg ps c h

theorem processEvents_nonneg_of (evs : List ContactEvent) :
    ∀ (c : Int), 0 ≤ c → 0 ≤ processEvents c evs := by
  induction evs with
  | nil => intro c hc; exact hc
  | cons e es ih => intro c hc; exact ih (processEvent c e) (processEvent_nonneg c e hc)

/-- C1: for every sequence of contact-begin/contact-end events delivered to
the Ground-Contact Tracker, the player's `onGroundContacts` counter is
non-negative after each event (decrements are clamped at 0), and the derived
`onGround` flag equals (count > 0).  Every prefix of a sequence is itself a
sequence, so the universal statement covers the counter after each event. -/
theorem ground_contacts_nonneg :
    ∀ evs : List ContactEvent,
      0 ≤ processEvents 0 evs ∧
      onGroundOf (processEvents 0 evs) = decide (0 < processEvents 0 evs) :=
  fun evs => ⟨processEvents_nonneg_of evs 0 le_rfl, rfl⟩

/-! ## Collectible trigger zone (part_000, `GameScene.collectItem` lines
488-497 and the overlap poll in `GameScene.update` lines 507-535) -/

/-- The scene state touched by the collectible logic: the consumed flag
`this.collectibleCollected`, whether `this.collectible` is still non-null,
and the score. -/
structure SceneState where
  collectibleCollected : Bool
  collectiblePresent : Bool
  score : Int
deriving DecidableEq

/-- `collectItem` (lines 488-497): mark consumed, destroy and null the
visual, add 10 to the score. -/
def collectItem (st : SceneState) : SceneState :=
  { collectibleCollected := true, collectiblePresent := false, score := st.score + 10 }

/-- One frame of the overlap poll in `GameScene.update` (lines 513-523):
`if (!this.collectibleCollected && this.collectible && overlap) this.collectItem()`.
`overlap` is the rectangle-intersection test result for this frame. -/
def sceneUpdate (st : SceneState) (overlap : Bool) : SceneState :=
  if !st.collectibleCollected && st.collectiblePresent && overlap then collectItem st
  else st

/-- Scene state right after `GameScene.create` (lines 413, 432):
`this.collectibleCollected = false`, collectible present, `this.score = 0`. -/
def sceneCreate : SceneState :=
  { collectibleCollected := false, collectiblePresent := true, score := 0 }

/-- Run the overlap poll over a sequence of frames; each element of the list
is that frame's overlap test result. -/
def sceneRun (st : SceneState) (overlaps : List Bool) : SceneState :=
  overlaps.foldl sceneUpdate st

theorem sceneUpdate_consumed (st : SceneState) (b : Bool)
    (h : st.collectibleCollected = true) : sceneUpdate st b = st := by
  unfold sceneUpdate
  rw [h]
  simp

theorem sceneRun_consumed (overlaps : List Bool) :
    ∀ st : SceneState, st.collectibleCollected = true → sceneRun st overlaps = st := by
  induction overlaps with
  | nil => intro st _; rfl
  | cons b bs ih =>
      intro st h
      show sceneRun (sceneUpdate st b) bs = st
      rw [sceneUpdate_consumed st b h]
      exact ih st h

/-- C9: the collectible is single-use.  Starting from scene creation, any
frame sequence containing at least one overlap ends with the score at
exactly 10 (one reward, not two), and any further frames — overlapping or
not — leave the scene state unchanged. -/
theorem collectible_single_use (overlaps : List Bool) (h : true ∈ overlaps) :
    (sceneRun sceneCreate overlaps).score = 10 ∧
    (sceneRun sceneCreate overlaps).collectibleCollected = true ∧
    ∀ more : List Bool,
      sceneRun (sceneRun sceneCreate overlaps) more = sceneRun sceneCreate overlaps := by
  have key : sceneRun sceneCreate overlaps = collectItem sceneCreate := by
    induction overlaps with
    | nil => cases h
    | cons b bs ih =>
        cases b with
        | true =>
            show sceneRun (sceneUpdate sceneCreate true) bs = collectItem sceneCreate
            have hstep : sceneUpdate sceneCreate true = collectItem sceneCreate := by decide
            rw [hstep]
            exact sceneRun_consumed bs (collectItem sceneCreate) rfl
        | false =>
            have hb : true ∈ bs := by simpa using h
            show sceneRun (sceneUpdate sceneCreate false) bs = collectItem sceneCreate
            have hstep : sceneUpdate sceneCreate false = sceneCreate := by decide
            rw [hstep]
            exact ih hb
  refine ⟨?_, ?_, ?_⟩
  · rw [key]; rfl
  · rw [key]; rfl
  · intro more
    rw [key]
    exact sceneRun_consumed more (collectItem sceneCreate) rfl

/-- Witness for C9 at a concrete input: two overlapping frames score 10
total, and a third overlap changes nothing. -/
theorem collectible_single_use_witness :
    (sceneRun sceneCreate [true, true]).score = 10 ∧
    sceneRun (sceneRun sceneCreate [true, true]) [true] = sceneRun sceneCreate [true, true] := by
  have h := collectible_single_use [true, true] (by decide)
  exact ⟨h.1, h.2.2 [true]⟩

/-! ## Locomotion controller (part_000, `PlayerController`, lines 150-250)

Matter mutates `body.velocity` in place, so after `player.setVelocityX(v)`
the alias `vel` taken at the top of `update` reads the updated value; the
embedding therefore threads the horizontal velocity through the kick, brake
and horizontal-control blocks in program order. -/

/-- The sprite texture / animation selected at the end of a tick. -/
inductive Pose
  | air
  | brake
  | push
  | idleAnim
  | roll
deriving DecidableEq

/-- Controller configuration (part_000 lines 156-161 defaults).  The kick
expiry `delayedCall(450)` is measured on the scene clock; in this tick-based
model it is a countdown in simulation ticks, 27 ticks ≈ 450 ms at 60 fps. -/
structure Config where
  jumpSpeed : ℚ := -10
  moveAccel : ℚ := 0.12
  idleThreshold : ℚ := 0.25
  maxVelX : ℚ := 9
  maxVelY : ℚ := 30
  kickDelayTicks : Nat := 27
deriving DecidableEq

/-- The cursor-key state polled on one tick.  `up` is the level state of the
jump key; the `JustDown` edge detector is modelled by the `prevUp` field of
the controller state. -/
structure Input where
  left : Bool
  right : Bool
  down : Bool
  up : Bool
deriving DecidableEq

/-- The mutable state read and written by `PlayerController.update`:
the body's velocity, the ground-contact counter, the two transient booleans,
the sprite flip, the `JustDown` memory for the up key, the pending kick
expiry (remaining ticks of the scheduled `delayedCall`), and the pose chosen
by the animation block. -/
structure PState where
  velX : ℚ
  velY : ℚ
  onGroundContacts : Int
  isKicking : Bool
  isBraking : Bool
  flipX : Bool
  prevUp : Bool
  kickTimer : Option Nat
  pose : Pose
deriving DecidableEq

/-- `Phaser.Math.Clamp(value, min, max) = Math.max(min, Math.min(max, value))`. -/
def clamp (value lo hi : ℚ) : ℚ :=
  max lo (min hi value)

/-- The kick-entry guard (part_000 line 185):
`!this.isKicking && this.onGround && still && (left || right)`, where
`still = Math.abs(vel.x) < this.idleThreshold` is read at the top of the
tick, before any velocity writes. -/
def kickFires (cfg : Config) (inp : Input) (s : PState) : Bool :=
  !s.isKicking && onGroundOf s.onGroundContacts &&
    decide (|s.velX| < cfg.idleThreshold) && (inp.left || inp.right)

/-- The jump guard (part_000 line 227): `this.onGround && jumpPressed` with
`jumpPressed = Phaser.Input.Keyboard.JustDown(this.cursors.up)`, an edge
detector — true only when the key is down now and was not down before. -/
def jumpFires (inp : Input) (s : PState) : Bool :=
  onGroundOf s.onGroundContacts && inp.up && !s.prevUp

/-- Horizontal velocity after the kick block (lines 185-194):
`player.setVelocityX(right ? 5 : -5)` when the kick fires. -/
def velAfterKick (cfg : Config) (inp : Input) (s : PState) : ℚ :=
  if kickFires cfg inp s then (if inp.right then (5 : ℚ) else -5) else s.velX

/-- Horizontal velocity after the braking block (lines 196-202):
`if (this.onGround && down) player.setVelocityX(vel.x * 0.75)`, where
`vel.x` now reads the value written by the kick block. -/
def velAfterBrake (cfg : Config) (inp : Input) (s : PState) : ℚ :=
  if onGroundOf s.onGroundContacts && inp.down then velAfterKick cfg inp s * 0.75
  else velAfterKick cfg inp s

/-- Horizontal velocity after the horizontal-motion block (lines 204-216):
the whole block is guarded by `if (!down)`; held left has priority over
held right; with neither held the velocity drifts by the 0.96 factor. -/
def velAfterControl (cfg : Config) (inp : Input) (s : PState) : ℚ :=
  if inp.down then velAfterBrake cfg inp s
  else if inp.left then velAfterBrake cfg inp s - cfg.moveAccel
  else if inp.right then velAfterBrake cfg inp s + cfg.moveAccel
  else velAfterBrake cfg inp s * 0.96

/-- Sprite flip after the horizontal-motion block: left sets `flipX = true`,
right sets `flipX = false`, otherwise (or while `down` suppresses the block)
it is unchanged. -/
def flipAfterControl (inp : Input) (s : PState) : Bool :=
  if inp.down then s.flipX
  else if inp.left then true
  else if inp.right then false
  else s.flipX

/-- The animation block (lines 231-248), a strict priority chain evaluated
from the post-update state: air, then brake, then push, then the looping
idle animation, then the rolling frame. -/
def derivePose (onGround braking kicking standing : Bool) : Pose :=
  if !onGround then Pose.air
  else if braking then Pose.brake
  else if kicking then Pose.push
  else if standing then Pose.idleAnim
  else Pose.roll

/-- One call of `PlayerController.update` (part_000 lines 171-249) on a
present player body, as a pure state transformer.  Field by field:
`velX` is the clamped result of the kick/brake/horizontal blocks (line 218);
`velY` is the jump overwrite (line 228) after the fall-speed clamp
(lines 222-224); `isKicking`/`kickTimer` are set on kick entry, the timer
being the scheduled `delayedCall(450)`; `isBraking` follows lines 197-202;
`prevUp` records the key level consumed by `JustDown`; `pose` is the
animation block's choice. -/
def update (cfg : Config) (inp : Input) (s : PState) : PState :=
  { s with
    velX := clamp (velAfterControl cfg inp s) (-cfg.maxVelX) cfg.maxVelX
    velY :=
      if jumpFires inp s then cfg.jumpSpeed
      else if cfg.maxVelY < s.velY then cfg.maxVelY else s.velY
    isKicking := if kickFires cfg inp s then true else s.isKicking
    isBraking := onGroundOf s.onGroundContacts && inp.down
    flipX := flipAfterControl inp s
    prevUp := inp.up
    kickTimer := if kickFires cfg inp s then some cfg.kickDelayTicks else s.kickTimer
    pose :=
      derivePose (onGroundOf s.onGroundContacts)
        (onGroundOf s.onGroundContacts && inp.down)
        (if kickFires cfg inp s then true else s.isKicking)
        (decide (|clamp (velAfterControl cfg inp s) (-cfg.maxVelX) cfg.maxVelX| <
          cfg.idleThreshold)) }

/-- The scene clock processed before the controller update of a frame: a
pending kick-expiry `delayedCall` counts down and, on expiry, runs
`() => { this.isKicking = false; }` (part_000 lines 191-193). -/
def clockStep (s : PState) : PState :=
  match s.kickTimer with
  | none => s
  | some 0 => { s with isKicking := false, kickTimer := none }
  | some (n + 1) => { s with kickTimer := some n }

/-- One simulation frame for the controller: the scene clock (timer
callbacks) runs strictly before `scene.update`, which calls
`playerController.update()`. -/
def tick (cfg : Config) (inp : Input) (s : PState) : PState :=
  update cfg inp (clockStep s)

/-- Number of ticks of a run on which the kick-entry branch fires. -/
def kickCount (cfg : Config) : PState → List Input → Nat
  | _, [] => 0
  | s, i :: is =>
      (if kickFires cfg i (clockStep s) then 1 else 0) + kickCount cfg (tick cfg i s) is

/-- Number of ticks of a run on which the jump branch fires. -/
def jumpCount (cfg : Config) : PState → List Input → Nat
  | _, [] => 0
  | s, i :: is =>
      (if jumpFires i (clockStep s) then 1 else 0) + jumpCount cfg (tick cfg i s) is

/-! ### Frame-step helper lemmas -/

theorem clockStep_velX (s : PState) : (clockStep s).velX = s.velX := by
  unfold clockStep; split <;> rfl

theorem clockStep_velY (s : PState) : (clockStep s).velY = s.velY := by
  unfold clockStep; split <;> rfl

theorem clockStep_contacts (s : PState) :
    (clockStep s).onGroundContacts = s.onGroundContacts := by
  unfold clockStep; split <;> rfl

theorem clockStep_prevUp (s : PState) : (clockStep s).prevUp = s.prevUp := by
  unfold clockStep; split <;> rfl

theorem clockStep_of_none {s : PState} (h : s.kickTimer = none) : clockStep s = s := by
  unfold clockStep; rw [h]

theorem clockStep_of_succ {s : PState} {n : Nat} (h : s.kickTimer = some (n + 1)) :
    clockStep s = { s with kickTimer := some n } := by
  unfold clockStep; rw [h]

theorem tick_velX (cfg : Config) (inp : Input) (s : PState) :
    (tick cfg inp s).velX =
      clamp (velAfterControl cfg inp (clockStep s)) (-cfg.maxVelX) cfg.maxVelX := rfl

theorem tick_velY (cfg : Config) (inp : Input) (s : PState) :
    (tick cfg inp s).velY =
      if jumpFires inp (clockStep s) then cfg.jumpSpeed
      else if cfg.maxVelY < (clockStep s).velY then cfg.maxVelY else (clockStep s).velY := rfl

theorem tick_contacts (cfg : Config) (inp : Input) (s : PState) :
    (tick cfg inp s).onGroundContacts = s.onGroundContacts := by
  show (clockStep s).onGroundContacts = s.onGroundContacts
  exact clockStep_contacts s

theorem tick_prevUp (cfg : Config) (inp : Input) (s : PState) :
    (tick cfg inp s).prevUp = inp.up := rfl

theorem tick_isKicking (cfg : Config) (inp : Input) (s : PState) :
    (tick cfg inp s).isKicking =
      (if kickFires cfg inp (clockStep s) then true else (clockStep s).isKicking) := rfl

theorem tick_kickTimer (cfg : Config) (inp : Input) (s : PState) :
    (tick cfg inp s).kickTimer =
      (if kickFires cfg inp (clockStep s) then some cfg.kickDelayTicks
       else (clockStep s).kickTimer) := rfl

/-! ### Clamp lemmas -/

theorem abs_clamp_le (x m : ℚ) (hm : 0 ≤ m) : |clamp x (-m) m| ≤ m := by
  unfold clamp
  rw [abs_le]
  constructor
  · exact le_max_left _ _
  · exact max_le (by linarith) (min_le_left m x)

theorem abs_clamp_le_abs (x m : ℚ) (hm : 0 ≤ m) : |clamp x (-m) m| ≤ |x| := by
  unfold clamp
  rw [abs_le]
  constructor
  · exact le_trans (le_min (by linarith [abs_nonneg x]) (neg_abs_le x)) (le_max_right _ _)
  · exact max_le (by linarith [abs_nonneg x]) (le_trans (min_le_right m x) (le_abs_self x))

theorem clockStep_flipX (s : PState) : (clockStep s).flipX = s.flipX := by
  unfold clockStep; split <;> rfl

theorem clockStep_isKicking_of_some {s : PState} {n : Nat} (h : s.kickTimer = some (n + 1)) :
    (clockStep s).isKicking = s.isKicking := by
  rw [clockStep_of_succ h]

/-! ### Concrete fixtures (the default configuration of part_000 lines
156-161 and small concrete controller states) -/

/-- The default controller configuration. -/
def cfg0 : Config := {}

/-- A grounded player standing still, fresh controller flags. -/
def standStill : PState :=
  { velX := 0, velY := 0, onGroundContacts := 1, isKicking := false, isBraking := false,
    flipX := false, prevUp := false, kickTimer := none, pose := Pose.idleAnim }

/-- A grounded player creeping at a tiny nonzero speed, below the idle
threshold. -/
def slowState : PState := { standStill with velX := 0.1 }

/-- A grounded player rolling at speed 2. -/
def rollState : PState := { standStill with velX := 2 }

/-- An airborne player (no foot-sensor contacts) moving right at speed 3. -/
def airState : PState := { standStill with velX := 3, onGroundContacts := 0, pose := Pose.air }

/-- Right held. -/
def inpRight : Input := { left := false, right := true, down := false, up := false }

/-- Down and left held together. -/
def inpDownLeft : Input := { left := true, right := false, down := true, up := false }

/-- Only down held. -/
def inpDown : Input := { left := false, right := false, down := true, up := false }

/-- Only the jump key held. -/
def inpUp : Input := { left := false, right := false, down := false, up := true }

/-- Left and right held simultaneously. -/
def inpBoth : Input := { left := true, right := true, down := false, up := false }

/-- Three frames of held right input. -/
def kickList : List Input := [inpRight, inpRight, inpRight]

/-- Two frames of held jump input. -/
def jumpList : List Input := [inpUp, inpUp]

/-! ### C2: kick-start is unretriggerable while active -/

theorem kickCount_zero_of_kicking (cfg : Config) :
    ∀ (L : List Input) (s : PState) (n : Nat), s.isKicking = true →
      s.kickTimer = some n → L.length ≤ n → kickCount cfg s L = 0 := by
  intro L
  induction L with
  | nil => intro s n _ _ _; rfl
  | cons i is ih =>
      intro s n hk ht hlen
      cases n with
      | zero => simp at hlen
      | succ m =>
          have hcs : clockStep s = { s with kickTimer := some m } := clockStep_of_succ ht
          have hkf : kickFires cfg i (clockStep s) = false := by
            rw [hcs]; simp [kickFires, hk]
          show (if kickFires cfg i (clockStep s) then 1 else 0) +
              kickCount cfg (tick cfg i s) is = 0
          rw [hkf]
          have h1 : (tick cfg i s).isKicking = true := by
            rw [tick_isKicking, hkf, if_neg (by simp), hcs]; exact hk
          have h2 : (tick cfg i s).kickTimer = some m := by
            rw [tick_kickTimer, hkf, if_neg (by simp), hcs]
          have h3 : is.length ≤ m := by simp at hlen; omega
          simp [ih (tick cfg i s) m h1 h2 h3]

/-- C2: for any run of consecutive ticks within the expiry window of the
scheduled kick timer, starting grounded, standing still, not kicking and
with no pending timer, with a horizontal direction held on every tick, the
kick-entry branch fires exactly once: `isKicking` is set on the first tick
and cannot be set again before the scheduled expiry fires. -/
theorem kick_enters_once (cfg : Config) (s : PState) (L : List Input)
    (hk : s.isKicking = false) (ht : s.kickTimer = none)
    (hg : 0 < s.onGroundContacts) (hv : |s.velX| < cfg.idleThreshold)
    (hheld : ∀ i ∈ L, i.left = true ∨ i.right = true)
    (hne : L ≠ []) (hlen : L.length ≤ cfg.kickDelayTicks + 1) :
    kickCount cfg s L = 1 := by
  cases L with
  | nil => exact absurd rfl hne
  | cons i is =>
      have hcs : clockStep s = s := clockStep_of_none ht
      have hkf : kickFires cfg i (clockStep s) = true := by
        rw [hcs]
        rcases hheld i (List.mem_cons_self i is) with h | h <;>
          simp [kickFires, onGroundOf, hk, hg, hv, h]
      show (if kickFires cfg i (clockStep s) then 1 else 0) +
          kickCount cfg (tick cfg i s) is = 1
      rw [hkf]
      have h1 : (tick cfg i s).isKicking = true := by
        rw [tick_isKicking, hkf, if_pos rfl]
      have h2 : (tick cfg i s).kickTimer = some cfg.kickDelayTicks := by
        rw [tick_kickTimer, hkf, if_pos rfl]
      have h3 : is.length ≤ cfg.kickDelayTicks := by simp at hlen; omega
      simp [kickCount_zero_of_kicking cfg is (tick cfg i s) cfg.kickDelayTicks h1 h2 h3]

/-- Witness for C2 at the default configuration: three ticks of held right
from standstill enter the kick exactly once. -/
theorem kick_enters_once_witness :
    standStill.isKicking = false ∧ 0 < standStill.onGroundContacts ∧
    |standStill.velX| < cfg0.idleThreshold ∧ kickCount cfg0 standStill kickList = 1 :=
  ⟨rfl, by decide, by norm_num [standStill, cfg0],
    kick_enters_once cfg0 standStill kickList rfl rfl (by decide)
      (by norm_num [standStill, cfg0]) (by decide) (by decide) (by decide)⟩

/-! ### C3: jump is edge-triggered and ground-gated -/

theorem jumpCount_zero_of_prevUp (cfg : Config) :
    ∀ (L : List Input) (s : PState), s.prevUp = true →
      (∀ i ∈ L, i.up = true) → jumpCount cfg s L = 0 := by
  intro L
  induction L with
  | nil => intro s _ _; rfl
  | cons i is ih =>
      intro s hp hall
      have hjf : jumpFires i (clockStep s) = false := by
        simp [jumpFires, clockStep_prevUp, hp]
      show (if jumpFires i (clockStep s) then 1 else 0) +
          jumpCount cfg (tick cfg i s) is = 0
      rw [hjf]
      have h1 : (tick cfg i s).prevUp = true := by
        rw [tick_prevUp]; exact hall i (List.mem_cons_self i is)
      have h2 : ∀ j ∈ is, j.up = true := fun j hj => hall j (List.mem_cons_of_mem i hj)
      simp [ih (tick cfg i s) h1 h2]

/-- C3: across any sequence of ticks with the jump key held, the jump branch
fires at most once (only on the not-pressed-to-pressed transition, never on
later ticks of the same hold), and on every tick the vertical velocity is
set to `jumpSpeed` exactly when the edge-triggered, ground-gated jump guard
fires — otherwise it only undergoes the fall-speed clamp. -/
theorem jump_edge_triggered (cfg : Config) (s : PState) (L : List Input)
    (hheld : ∀ i ∈ L, i.up = true) :
    jumpCount cfg s L ≤ 1 ∧
    ∀ (cfg₂ : Config) (i : Input) (s₂ : PState),
      (tick cfg₂ i s₂).velY =
        if jumpFires i (clockStep s₂) then cfg₂.jumpSpeed
        else min s₂.velY cfg₂.maxVelY := by
  constructor
  · cases L with
    | nil => exact Nat.zero_le 1
    | cons i is =>
        show (if jumpFires i (clockStep s) then 1 else 0) +
            jumpCount cfg (tick cfg i s) is ≤ 1
        have h1 : (tick cfg i s).prevUp = true := by
          rw [tick_prevUp]; exact hheld i (List.mem_cons_self i is)
        have h2 : ∀ j ∈ is, j.up = true := fun j hj => hheld j (List.mem_cons_of_mem i hj)
        rw [jumpCount_zero_of_prevUp cfg is (tick cfg i s) h1 h2]
        split <;> omega
  · intro cfg₂ i s₂
    rw [tick_velY, clockStep_velY]
    rcases lt_or_le cfg₂.maxVelY s₂.velY with h | h
    · rw [if_pos h, min_eq_right h.le]
    · rw [if_neg (not_lt.mpr h), min_eq_left h]

/-- Witness for C3: two ticks of held jump from standstill fire the jump at
most once, and the vertical-velocity characterisation holds at a concrete
tick. -/
theorem jump_edge_triggered_witness :
    jumpCount cfg0 standStill jumpList ≤ 1 ∧
    (tick cfg0 inpUp standStill).velY =
      (if jumpFires inpUp (clockStep standStill) then cfg0.jumpSpeed
       else min standStill.velY cfg0.maxVelY) :=
  ⟨(jump_edge_triggered cfg0 standStill jumpList (by decide)).1,
    (jump_edge_triggered cfg0 standStill jumpList (by decide)).2 cfg0 inpUp standStill⟩

/-! ### C4: horizontal velocity always clamped -/

/-- C4: for every configuration with a non-negative clamp bound, every input
combination and every state, the horizontal velocity satisfies
`|velX| ≤ maxVelX` at the end of the tick — `update` writes `velX` only
through `Phaser.Math.Clamp(targetVX, -maxVelX, maxVelX)` (line 218). -/
theorem velX_always_clamped (cfg : Config) (inp : Input) (s : PState)
    (h : 0 ≤ cfg.maxVelX) : |(tick cfg inp s).velX| ≤ cfg.maxVelX := by
  rw [tick_velX]
  exact abs_clamp_le _ _ h

/-- Witness for C4 at the default configuration. -/
theorem velX_always_clamped_witness :
    0 ≤ cfg0.maxVelX ∧ |(tick cfg0 inpRight rollState).velX| ≤ cfg0.maxVelX :=
  ⟨by norm_num [cfg0], velX_always_clamped cfg0 inpRight rollState (by norm_num [cfg0])⟩

/-! ### C5: braking slows the player -/

/-- Counterexample to C5 as stated: a grounded player with the tiny nonzero
velocity 0.1 (below the idle threshold), holding down together with left,
satisfies every stated precondition — on ground, nonzero horizontal
velocity, brake held — yet the tick raises the speed magnitude from 0.1 to
3.75, because the kick-start branch fires and writes the -5 impulse before
the brake damping. -/
theorem brake_decrease_cex :
    0 < slowState.onGroundContacts ∧ slowState.velX ≠ 0 ∧ inpDownLeft.down = true ∧
    |slowState.velX| < |(tick cfg0 inpDownLeft slowState).velX| := by
  refine ⟨by decide, by norm_num [slowState, standStill], rfl, ?_⟩
  have hval : (tick cfg0 inpDownLeft slowState).velX = -3.75 := by
    norm_num [tick, update, clockStep, kickFires, velAfterControl, velAfterBrake,
      velAfterKick, onGroundOf, clamp, min_def, max_def, cfg0, slowState, standStill,
      inpDownLeft, abs_lt]
  rw [hval]
  norm_num [slowState, standStill, abs_lt, abs_of_nonneg]

/-- C5 amended: for a grounded player with nonzero horizontal velocity and
the brake input held, the speed magnitude strictly decreases on every tick
on which the kick-start branch does not fire (the kick fires only when the
player is not already kicking, is standing still — speed below the idle
threshold — and a direction key is held; in that case its fixed impulse can
raise the speed). -/
theorem brake_strictly_decreases (cfg : Config) (inp : Input) (s : PState)
    (hg : 0 < s.onGroundContacts) (hd : inp.down = true) (hv : s.velX ≠ 0)
    (hnk : kickFires cfg inp (clockStep s) = false) (hm : 0 ≤ cfg.maxVelX) :
    |(tick cfg inp s).velX| < |s.velX| := by
  have hvk : velAfterKick cfg inp (clockStep s) = s.velX := by
    unfold velAfterKick
    rw [hnk, if_neg (by simp), clockStep_velX]
  have hvb : velAfterBrake cfg inp (clockStep s) = s.velX * 0.75 := by
    unfold velAfterBrake
    rw [clockStep_contacts, hd, hvk]
    simp [onGroundOf, hg]
  have hvc : velAfterControl cfg inp (clockStep s) = s.velX * 0.75 := by
    unfold velAfterControl
    rw [hd, if_pos rfl, hvb]
  rw [tick_velX, hvc]
  have habs : 0 < |s.velX| := abs_pos.mpr hv
  calc |clamp (s.velX * 0.75) (-cfg.maxVelX) cfg.maxVelX|
      ≤ |s.velX * 0.75| := abs_clamp_le_abs _ _ hm
    _ = |s.velX| * 0.75 := by rw [abs_mul]; norm_num
    _ < |s.velX| := by linarith

/-- Witness for C5 (amended): a grounded player rolling at speed 2 with only
down held slows on the tick. -/
theorem brake_strictly_decreases_witness :
    0 < rollState.onGroundContacts ∧ rollState.velX ≠ 0 ∧ inpDown.down = true ∧
    |(tick cfg0 inpDown rollState).velX| < |rollState.velX| :=
  ⟨by decide, by norm_num [rollState, standStill], rfl,
    brake_strictly_decreases cfg0 inpDown rollState (by decide) rfl
      (by norm_num [rollState, standStill])
      (by simp [kickFires, inpDown, clockStep, rollState, standStill])
      (by norm_num [cfg0])⟩

/-! ### C6: pose derivation follows strict priority -/

/-- C6: the pose stored by a tick is exactly the strict-priority derivation
from the post-tick state (airborne, then braking, then kicking, then
standing-still, then rolling), and the priority chain sends an airborne
state to the air pose even when the braking and kicking flags are both
true, a braking grounded state to the brake pose, a kicking grounded
non-braking state to the push pose, a still grounded state with no flags to
the looping idle animation, and a moving grounded state with no flags to
the roll pose. -/
theorem pose_priority :
    (∀ (cfg : Config) (inp : Input) (s : PState),
      (tick cfg inp s).pose =
        derivePose (onGroundOf (tick cfg inp s).onGroundContacts)
          (tick cfg inp s).isBraking (tick cfg inp s).isKicking
          (decide (|(tick cfg inp s).velX| < cfg.idleThreshold))) ∧
    (∀ b k st : Bool, derivePose false b k st = Pose.air) ∧
    (∀ k st : Bool, derivePose true true k st = Pose.brake) ∧
    (∀ st : Bool, derivePose true false true st = Pose.push) ∧
    derivePose true false false true = Pose.idleAnim ∧
    derivePose true false false false = Pose.roll :=
  ⟨fun _ _ _ => rfl, by decide, by decide, by decide, rfl, rfl⟩

/-! ### C7: brake release / airborne behaviour -/

/-- Counterexample to C7 as stated: an airborne player holding down plus
left does get `isBraking = false`, but the held direction's acceleration is
not applied — the horizontal velocity is unchanged by the tick (and the
acceleration magnitude is nonzero, so an applied acceleration would have
changed it).  The horizontal-control block (lines 204-216) is guarded by
`if (!down)`, not by the braking flag. -/
theorem airborne_down_cex :
    airState.onGroundContacts = 0 ∧ inpDownLeft.down = true ∧ inpDownLeft.left = true ∧
    (tick cfg0 inpDownLeft airState).isBraking = false ∧
    (tick cfg0 inpDownLeft airState).velX = airState.velX ∧
    cfg0.moveAccel ≠ 0 := by
  refine ⟨rfl, rfl, rfl, ?_, ?_, by norm_num [cfg0]⟩
  · simp [tick, update, clockStep, onGroundOf, airState, standStill, inpDownLeft]
  · norm_num [tick, update, clockStep, kickFires, velAfterControl, velAfterBrake,
      velAfterKick, onGroundOf, clamp, min_def, max_def, cfg0, airState, standStill,
      inpDownLeft]

/-- C7 amended: whenever the player is airborne or the brake input is
released, `isBraking` is set to false; but directional acceleration is gated
on the down key itself, not on the braking flag: on any tick with down held
the horizontal-control block is suppressed entirely — the horizontal
velocity is only clamped and the facing is unchanged — and a held
direction's acceleration applies only on ticks where down is not held (shown
here for held left, when no kick fires). -/
theorem braking_clear_down_gates_accel (cfg : Config) (inp : Input) (s : PState)
    (h : (onGroundOf s.onGroundContacts && inp.down) = false) :
    (tick cfg inp s).isBraking = false ∧
    (inp.down = true →
      (tick cfg inp s).velX = clamp s.velX (-cfg.maxVelX) cfg.maxVelX ∧
      (tick cfg inp s).flipX = s.flipX) ∧
    (inp.down = false → inp.left = true →
      kickFires cfg inp (clockStep s) = false →
      (tick cfg inp s).velX = clamp (s.velX - cfg.moveAccel) (-cfg.maxVelX) cfg.maxVelX) := by
  refine ⟨?_, ?_, ?_⟩
  · show (onGroundOf (clockStep s).onGroundContacts && inp.down) = false
    rw [clockStep_contacts]; exact h
  · intro hd
    have hog : onGroundOf s.onGroundContacts = false := by
      rw [hd] at h; simpa using h
    have hnk : kickFires cfg inp (clockStep s) = false := by
      simp [kickFires, clockStep_contacts, hog]
    have hvk : velAfterKick cfg inp (clockStep s) = s.velX := by
      unfold velAfterKick
      rw [hnk, if_neg (by simp), clockStep_velX]
    have hvb : velAfterBrake cfg inp (clockStep s) = s.velX := by
      unfold velAfterBrake
      rw [clockStep_contacts, hog, hvk]
      simp
    constructor
    · rw [tick_velX]
      unfold velAfterControl
      rw [hd, if_pos rfl, hvb]
    · show flipAfterControl inp (clockStep s) = s.flipX
      unfold flipAfterControl
      rw [hd, if_pos rfl, clockStep_flipX]
  · intro hd hl hnk
    have hvk : velAfterKick cfg inp (clockStep s) = s.velX := by
      unfold velAfterKick
      rw [hnk, if_neg (by simp), clockStep_velX]
    have hvb : velAfterBrake cfg inp (clockStep s) = s.velX := by
      unfold velAfterBrake
      rw [hd, hvk]
      simp
    rw [tick_velX]
    unfold velAfterControl
    rw [hd, hl, hvb]
    simp

/-- Witness for C7 (amended) at a concrete airborne state with down and left
held: braking is cleared and the velocity is merely clamped. -/
theorem braking_clear_down_gates_accel_witness :
    (tick cfg0 inpDownLeft airState).isBraking = false ∧
    (tick cfg0 inpDownLeft airState).velX = clamp airState.velX (-cfg0.maxVelX) cfg0.maxVelX :=
  ⟨(braking_clear_down_gates_accel cfg0 inpDownLeft airState (by decide)).1,
    ((braking_clear_down_gates_accel cfg0 inpDownLeft airState (by decide)).2.1 rfl).1⟩

/-! ### C8: tick on an absent player or body -/

/-- The entry of `PlayerController.update` (part_000 lines 171-174):
`const player = this.player; const body = player.body; if (!player || !body) return;`.
JavaScript evaluates the field access `player.body` before the guard runs,
so a null `player` throws a TypeError there; a present player whose body is
already destroyed (null) reaches the guard and returns with no mutation.
The outer `Option` is the player reference, the inner one its body. -/
def updateEntry (cfg : Config) (inp : Input) (playerRef : Option (Option PState)) :
    Except String (Option (Option PState)) :=
  match playerRef with
  | none => Except.error "TypeError: Cannot read properties of null"
  | some none => Except.ok (some none)
  | some (some s) => Except.ok (some (some (update cfg inp s)))

/-- C8 evaluated at the failing input: with the player reference absent the
call throws instead of silently returning, because `player.body` is
dereferenced one line before the `!player` guard; with the player present
but its body destroyed, the guard works and the call is a true no-op. -/
theorem tick_missing_player_throws :
    updateEntry cfg0 inpRight none =
      Except.error "TypeError: Cannot read properties of null" ∧
    updateEntry cfg0 inpRight (some none) = Except.ok (some none) :=
  ⟨rfl, rfl⟩

/-! ### C10: direction tie-break of the kick impulse -/

/-- C10: when the kick-start preconditions hold and both left and right are
held (down released), the kick branch evaluates `right ? 5 : -5` to the
rightward impulse 5, the horizontal-control branch then applies the
left-priority acceleration, and the tick still ends with a strictly
positive horizontal velocity. -/
theorem kick_tiebreak_right (cfg : Config) (s : PState)
    (hk : s.isKicking = false) (ht : s.kickTimer = none)
    (hg : 0 < s.onGroundContacts) (hv : |s.velX| < cfg.idleThreshold)
    (ha5 : cfg.moveAccel < 5) (hm : 0 < cfg.maxVelX) :
    (tick cfg inpBoth s).isKicking = true ∧
    velAfterKick cfg inpBoth (clockStep s) = 5 ∧
    velAfterControl cfg inpBoth (clockStep s) = 5 - cfg.moveAccel ∧
    0 < (tick cfg inpBoth s).velX := by
  have hcs : clockStep s = s := clockStep_of_none ht
  have hkf : kickFires cfg inpBoth (clockStep s) = true := by
    rw [hcs]
    simp [kickFires, onGroundOf, hk, hg, hv, inpBoth]
  have hvk : velAfterKick cfg inpBoth (clockStep s) = 5 := by
    unfold velAfterKick
    rw [hkf, if_pos rfl]
    simp [inpBoth]
  have hvb : velAfterBrake cfg inpBoth (clockStep s) = 5 := by
    unfold velAfterBrake
    rw [hvk]
    simp [inpBoth]
  have hvc : velAfterControl cfg inpBoth (clockStep s) = 5 - cfg.moveAccel := by
    unfold velAfterControl
    rw [hvb]
    simp [inpBoth]
  refine ⟨?_, hvk, hvc, ?_⟩
  · rw [tick_isKicking, hkf, if_pos rfl]
  · rw [tick_velX, hvc]
    unfold clamp
    have h1 : 0 < min cfg.maxVelX (5 - cfg.moveAccel) := lt_min hm (by linarith)
    exact lt_of_lt_of_le h1 (le_max_right _ _)

/-- Witness for C10: from standstill with the default configuration, both
directions held kick the player rightward. -/
theorem kick_tiebreak_right_witness :
    (tick cfg0 inpBoth standStill).isKicking = true ∧
    velAfterKick cfg0 inpBoth (clockStep standStill) = 5 ∧
    0 < (tick cfg0 inpBoth standStill).velX :=
  ⟨(kick_tiebreak_right cfg0 standStill rfl rfl (by decide)
      (by norm_num [standStill, cfg0]) (by norm_num [cfg0]) (by norm_num [cfg0])).1,
    (kick_tiebreak_right cfg0 standStill rfl rfl (by decide)
      (by norm_num [standStill, cfg0]) (by norm_num [cfg0]) (by norm_num [cfg0])).2.1,
    (kick_tiebreak_right cfg0 standStill rfl rfl (by decide)
      (by norm_num [standStill, cfg0]) (by norm_num [cfg0]) (by norm_num [cfg0])).2.2.2⟩

end SkateHustle
